import Mathlib

/-
Verification of the C# model generator (`main.py`) against its
natural-language specification.

Shallow embedding conventions:
* A parsed sheet cell is `Option String`; a pandas missing value (NaN) is
  `none`.  A row is modelled by its values at the five configured columns
  (the `excel_columns` roles name / type / required / description / remarks).
* A pandas DataFrame (one sheet) is a `List Row` in row order.
* A Python `set` is modelled as a duplicate-free list in insertion order
  together with an explicit enumeration parameter `enum` wherever the code
  iterates over a set: Python's set iteration order is unspecified (and, for
  strings, hash-randomised per process), so functions that iterate a set take
  the chosen order as an argument.
* `pd.Series.unique()` is first-seen-order deduplication (`uniqueFirst`),
  `set.update` is `setUpdate`, `Series.dropna()` is `List.filterMap` on the
  optional cell.
* Filesystem writes are modelled as the returned list of
  (file name, file contents) pairs; a Python exception aborting the run is
  `Except.error`.
-/

set_option maxHeartbeats 1000000

namespace ModelGen

/-- A row of a parsed sheet, restricted to the five configured columns
(the `excel_columns` roles).  A missing cell (pandas NaN) is `none`. -/
structure Row where
  name : Option String
  type : Option String
  required : Option String
  description : Option String
  remarks : Option String
  deriving DecidableEq

/-- One parsed sheet (`xl.parse(sheet_name)`), in row order. -/
abbrev Dataset := List Row

/-- First-seen-order deduplication: the behaviour of `pd.Series.unique()` and
of inserting a list of elements into a fresh Python set. -/
def uniqueFirstAux {α : Type} [DecidableEq α] (seen : List α) : List α → List α
  | [] => []
  | x :: xs =>
    if x ∈ seen then uniqueFirstAux seen xs else x :: uniqueFirstAux (x :: seen) xs

def uniqueFirst {α : Type} [DecidableEq α] (l : List α) : List α :=
  uniqueFirstAux [] l

/-- Python `set.update`: add the not-yet-present elements of `l` to `s`,
in order. -/
def setUpdate {α : Type} [DecidableEq α] (s l : List α) : List α :=
  l.foldl (fun acc x => if x ∈ acc then acc else acc ++ [x]) s

/-- The row predicate of `df[df[excel_columns["name"]] == field_name]`
(main.py line 57).  pandas `==` is `False` when either side is NaN, so a
missing (`none`) field name matches no row. -/
def rowMatches (field_name : Option String) (r : Row) : Bool :=
  match field_name with
  | some s => r.name == some s
  | none => false

/-- `field_data` of main.py line 57: the rows of `df` matching `field_name`. -/
def matchingRows (field_name : Option String) (df : Dataset) : Dataset :=
  df.filter (rowMatches field_name)

/-- `field_data[excel_columns["type"]].dropna().unique()` (line 58). -/
def perDfTypes (field_name : Option String) (df : Dataset) : List String :=
  uniqueFirst ((matchingRows field_name df).filterMap Row.type)

/-- `field_data[excel_columns["required"]].dropna().unique()` (line 59). -/
def perDfReq (field_name : Option String) (df : Dataset) : List String :=
  uniqueFirst ((matchingRows field_name df).filterMap Row.required)

/-- `field_data[excel_columns["description"]].dropna().unique()` (line 60). -/
def perDfExpl (field_name : Option String) (df : Dataset) : List String :=
  uniqueFirst ((matchingRows field_name df).filterMap Row.description)

/-- `field_data[excel_columns["remarks"]].dropna().unique()` (line 61). -/
def perDfRem (field_name : Option String) (df : Dataset) : List String :=
  uniqueFirst ((matchingRows field_name df).filterMap Row.remarks)

/-- The body of the `for df in dfs` loop of `aggregate_field_data`
(lines 56-61): `types` and `required_values` are Python sets (modelled in
insertion order), `explanations` and `remarks` are lists extended per
dataset. -/
def aggregateStep (field_name : Option String)
    (acc : List String × List String × List String × List String)
    (df : Dataset) : List String × List String × List String × List String :=
  (setUpdate acc.1 (perDfTypes field_name df),
   setUpdate acc.2.1 (perDfReq field_name df),
   acc.2.2.1 ++ perDfExpl field_name df,
   acc.2.2.2 ++ perDfRem field_name df)

/-- The accumulated (types, required_values, explanations, remarks) after the
loop of `aggregate_field_data`. -/
def aggregateSets (dfs : List Dataset) (field_name : Option String) :
    List String × List String × List String × List String :=
  dfs.foldl (aggregateStep field_name) ([], [], [], [])

/-- `aggregate_field_data` (lines 54-64).  `list(types)[0]` reads an element
of the Python set `types` in whatever order the run enumerates it — for
strings that order is hash-randomised per process, a genuine per-run
non-determinism.  This definition resolves the pick as the first-inserted
element; `aggregate_field_data_ord` below makes the enumeration order an
explicit parameter (this definition is its identity-order instance), and the
order-sensitivity results are stated against that variant. -/
def aggregate_field_data (dfs : List Dataset) (field_name : Option String) :
    String × String × List String × List String :=
  let r := aggregateSets dfs field_name
  (r.1.headD "string", if "Y" ∈ r.2.1 then "Y" else "N", r.2.2.1, r.2.2.2)

/-- `set(df[excel_columns["name"]].dropna())` (lines 69 and 71). -/
def sheetFields (df : Dataset) : List String :=
  uniqueFirst (df.filterMap Row.name)

/-- The loop of `find_common_fields` (lines 70-72): repeated set
intersection, starting from the first dataset's field-name set. -/
def commonFold (df0 : Dataset) (rest : List Dataset) : List String :=
  rest.foldl
    (fun common_fields df => common_fields.filter (fun s => decide (s ∈ sheetFields df)))
    (sheetFields df0)

/-- `find_common_fields` (lines 68-73).  `dfs[0]` raises `IndexError` on an
empty list, modelled as `none`. -/
def find_common_fields : List Dataset → Option (List String)
  | [] => none
  | df0 :: rest => some (commonFold df0 rest)

/-- Follows the spec's words (section 4.3), for comparison with
`find_common_fields`: "the set intersection, across all datasets in the
group, of each dataset's set of non-empty field names ... Empty-string or
missing field names are excluded from consideration before intersection." -/
def sheetFields_spec (df : Dataset) : List String :=
  uniqueFirst ((df.filterMap Row.name).filter (fun s => decide (s ≠ "")))

/-- Follows the spec's words (section 4.3): intersection of the
empty-string-and-missing-filtered field-name sets; requires at least one
dataset. -/
def find_common_fields_spec : List Dataset → Option (List String)
  | [] => none
  | df0 :: rest =>
    some (rest.foldl
      (fun common_fields df => common_fields.filter (fun s => decide (s ∈ sheetFields_spec df)))
      (sheetFields_spec df0))

/-- Lines 30-46 of `generate_csharp_property`: the `/// <summary>` comment
block built from the concatenated explanations and the remark lines. -/
def summaryBlock (explanations remarks : List String) (indent : String) : String :=
  let explanation_str := String.join explanations
  let remarks_str := String.intercalate ("\n" ++ indent ++ "/// ") remarks
  let comment_str :=
    if remarks_str = "" then explanation_str
    else explanation_str ++ "\n" ++ indent ++ "/// " ++ remarks_str
  indent ++ "/// <summary>\n" ++ indent ++ "/// " ++ comment_str ++ "\n"
    ++ indent ++ "/// </summary>\n"

/-- `generate_csharp_property` (lines 28-50).  `data_type_mapping` is the
configured type mapping (a JSON object, modelled as an association list).
The commented-out `[Required]` hook (lines 47-48) is dead code: the
`required` argument is accepted but never used. -/
def generate_csharp_property (data_type_mapping : List (String × String))
    (name type required : String) (explanations remarks : List String)
    (indent : String) : String :=
  let csharp_type := (List.lookup type data_type_mapping).getD "string" ++ "?"
  let property_str := summaryBlock explanations remarks indent
  property_str ++ indent ++ "public " ++ csharp_type ++ " " ++ name
    ++ " \x7b get; set; \x7d\n\n"

/-- `str()` of a field name as interpolated by the f-string of line 49:
a pandas NaN prints as `nan`. -/
def fieldText : Option String → String
  | some s => s
  | none => "nan"

/-- The indent introduced by a non-empty namespace (lines 90-92; Python
string truthiness: the empty namespace adds no wrapper). -/
def classIndent (ns : String) : String :=
  if ns = "" then "" else "    "

/-- The body of the `for field_name in fields` loop of `generate_class`
(lines 102-106): aggregate the field's data, then render one property. -/
def propBlock (dtm : List (String × String)) (dfs : List Dataset)
    (indent : String) (field_name : Option String) : String :=
  let r := aggregate_field_data dfs field_name
  generate_csharp_property dtm (fieldText field_name) r.1 r.2.1 r.2.2.1 r.2.2.2 indent

/-- `generate_class` (lines 85-113).  In the source, `fields` is a Python
set; here it is the list of its elements in the (unspecified) order Python
iterates them, supplied by the caller. -/
def generate_class (dtm : List (String × String)) (ns : String)
    (class_name : String) (fields : List (Option String)) (dfs : List Dataset)
    (base_class_name : Option String) : String :=
  let indent := classIndent ns
  let head0 := if ns = "" then "" else "namespace " ++ ns ++ "\n\x7b\n"
  let head1 := head0 ++ (match base_class_name with
    | some b => indent ++ "public class " ++ class_name ++ " : " ++ b ++ "\n"
    | none => indent ++ "public class " ++ class_name ++ "\n")
  let head2 := head1 ++ indent ++ "\x7b\n"
  let body := fields.foldl
    (fun acc field_name => acc ++ propBlock dtm dfs (indent ++ "    ") field_name) head2
  body ++ indent ++ "\x7d\n" ++ (if ns = "" then "" else "\x7d\n")

/-- The part of the rendered class before the property blocks. -/
def classHeader (ns class_name : String) (base_class_name : Option String) : String :=
  (if ns = "" then "" else "namespace " ++ ns ++ "\n\x7b\n")
    ++ (match base_class_name with
      | some b => classIndent ns ++ "public class " ++ class_name ++ " : " ++ b ++ "\n"
      | none => classIndent ns ++ "public class " ++ class_name ++ "\n")
    ++ classIndent ns ++ "\x7b\n"

/-- The part of the rendered class after the property blocks. -/
def classFooter (ns : String) : String :=
  classIndent ns ++ "\x7d\n" ++ (if ns = "" then "" else "\x7d\n")

/-- One step of pandas `ffill`: a non-missing cell keeps its value, a missing
cell takes the running last non-missing value. -/
def ffillStep (last c : Option String) : Option String :=
  match c with
  | some v => some v
  | none => last

/-- pandas `Series.ffill` with running state `last` (initially no value). -/
def ffillAux (last : Option String) : List (Option String) → List (Option String)
  | [] => []
  | c :: cs => ffillStep last c :: ffillAux (ffillStep last c) cs

/-- `df[excel_columns["name"]].ffill(inplace=True)` (line 132) applied to the
name column: propagate the last non-missing value downward. -/
def ffill (col : List (Option String)) : List (Option String) :=
  ffillAux none col

/-- The last non-missing value of a column prefix (`none` if all missing). -/
def lastSome (l : List (Option String)) : Option String :=
  l.foldl ffillStep none

/-- Replace the name column of a dataset. -/
def withNames (df : Dataset) (names : List (Option String)) : Dataset :=
  df.zipWith (fun r n => { r with name := n }) names

/-- The forward-fill of line 132 as a dataset transformation: the dataset
with its name column forward-filled. -/
def preprocess (df : Dataset) : Dataset :=
  withNames df (ffill (df.map Row.name))

/-- `set(df[excel_columns["name"]])` (line 146): no `dropna()` here, so a
missing name that survived the forward-fill is an element (pandas keeps a
single NaN representative in the set). -/
def sheetFieldsWithNa (df : Dataset) : List (Option String) :=
  uniqueFirst (df.map Row.name)

/-- `unique_fields = set(df[excel_columns["name"]]) - common_fields`
(line 146). -/
def unique_fields (df : Dataset) (common_fields : List String) : List (Option String) :=
  (sheetFieldsWithNa df).filter (fun x => decide (x ∉ common_fields.map some))

/-- Byte-wise list prefix test. -/
def listPrefixEq : List Char → List Char → Bool
  | [], _ => true
  | _ :: _, [] => false
  | a :: as, b :: bs => a == b && listPrefixEq as bs

/-- Substring occurrence on character lists. -/
def hasSubList (pat : List Char) : List Char → Bool
  | [] => pat.isEmpty
  | c :: cs => listPrefixEq pat (c :: cs) || hasSubList pat cs

/-- Python `pat in s` substring test (line 127: `group_name in sheet`). -/
def strHasSub (s pat : String) : Bool :=
  hasSubList pat.toList s.toList

/-- The `for group_name in group_names` loop of
`generate_csharp_classes_from_excel` (lines 125-151).  `enum` is the order
in which Python happens to iterate a set when rendering a class (applied to
the model's insertion-ordered element list); `sheets` is the workbook as
(sheet name, parsed dataset) pairs in workbook order.  The returned list
models the files written, in write order; `Except.error` models the
uncaught exception aborting the run (`find_common_fields` indexing `dfs[0]`
on an empty group). -/
def processGroups (dtm : List (String × String))
    (enum : List (Option String) → List (Option String))
    (sheets : List (String × Dataset)) (ns : String) :
    List String → Except String (List (String × String))
  | [] => Except.ok []
  | group_name :: rest_groups =>
    let group_sheets := sheets.filter (fun p => strHasSub p.1 group_name)
    let dfs := (group_sheets.map Prod.snd).map preprocess
    match find_common_fields dfs with
    | none =>
      Except.error ("IndexError: list index out of range (group '"
        ++ group_name ++ "' matched no sheets)")
    | some common_fields =>
      let base_class_name := "Base" ++ group_name
      let base_class_str :=
        generate_class dtm ns base_class_name (enum (common_fields.map some))
          [dfs.headD []] none
      let children := ((group_sheets.map Prod.fst).zip dfs).map (fun p =>
        (p.1 ++ ".cs",
          generate_class dtm ns p.1 (enum (unique_fields p.2 common_fields))
            [p.2] (some base_class_name)))
      match processGroups dtm enum sheets ns rest_groups with
      | Except.error e => Except.error e
      | Except.ok writes =>
        Except.ok ((base_class_name ++ ".cs", base_class_str) :: children ++ writes)

/-- `generate_csharp_classes_from_excel` (lines 117-151), with spreadsheet
loading and directory creation (pure I/O) factored out: the workbook is
given as parsed sheets, and the files written are returned. -/
def generate_csharp_classes_from_excel (dtm : List (String × String))
    (enum : List (Option String) → List (Option String))
    (sheets : List (String × Dataset)) (group_names : List String)
    (ns : String) : Except String (List (String × String)) :=
  processGroups dtm enum sheets ns group_names

/-- Projection of a run result onto the written files (empty on error). -/
def getWrites : Except String (List (String × String)) → List (String × String)
  | Except.ok ws => ws
  | Except.error _ => []

/-- A row with every cell missing. -/
def blankRow : Row := ⟨none, none, none, none, none⟩

/-- A row carrying only a field name. -/
def namedRow (s : String) : Row := ⟨some s, none, none, none, none⟩

/-- A row whose name cell holds the empty string (not NaN). -/
def emptyNameRow : Row := ⟨some "", none, none, none, none⟩

/-- A row for field `f` with description `d` and remark `r`. -/
def descRow : Row := ⟨some "f", none, none, some "d", some "r"⟩

def dfItems1 : Dataset := [namedRow "Id", namedRow "Name", namedRow "Qty"]

def dfItems2 : Dataset := [namedRow "Id", namedRow "Name", namedRow "Price"]

def dfAB : Dataset := [namedRow "A", namedRow "B"]

/-- Two rows for the same field `A` carrying conflicting type labels. -/
def dfConflict : Dataset :=
  [⟨some "A", some "int", none, none, none⟩,
   ⟨some "A", some "long", none, none, none⟩]

/-- A type mapping sending the conflicting labels to distinct target types. -/
def dtmIL : List (String × String) := [("int", "int"), ("long", "long")]

/-- `aggregate_field_data` with the iteration order of the Python set
`types` made explicit: `list(types)[0]` (line 62) is the first element of
the order `tOrd` in which this run happens to enumerate the hash-randomised
set.  `aggregate_field_data` is this definition at the insertion order
(`tOrd = fun l => l`). -/
def aggregate_field_data_ord (tOrd : List String → List String)
    (dfs : List Dataset) (field_name : Option String) :
    String × String × List String × List String :=
  let r := aggregateSets dfs field_name
  ((tOrd r.1).headD "string", if "Y" ∈ r.2.1 then "Y" else "N", r.2.2.1, r.2.2.2)

/-- `propBlock` with the type-label-set enumeration order explicit. -/
def propBlock_ord (tOrd : List String → List String)
    (dtm : List (String × String)) (dfs : List Dataset)
    (indent : String) (field_name : Option String) : String :=
  let r := aggregate_field_data_ord tOrd dfs field_name
  generate_csharp_property dtm (fieldText field_name) r.1 r.2.1 r.2.2.1 r.2.2.2 indent

/-- `generate_class` with the type-label-set enumeration order explicit. -/
def generate_class_ord (tOrd : List String → List String)
    (dtm : List (String × String)) (ns : String)
    (class_name : String) (fields : List (Option String)) (dfs : List Dataset)
    (base_class_name : Option String) : String :=
  let indent := classIndent ns
  let head0 := if ns = "" then "" else "namespace " ++ ns ++ "\n\x7b\n"
  let head1 := head0 ++ (match base_class_name with
    | some b => indent ++ "public class " ++ class_name ++ " : " ++ b ++ "\n"
    | none => indent ++ "public class " ++ class_name ++ "\n")
  let head2 := head1 ++ indent ++ "\x7b\n"
  let body := fields.foldl
    (fun acc field_name => acc ++ propBlock_ord tOrd dtm dfs (indent ++ "    ") field_name)
    head2
  body ++ indent ++ "\x7d\n" ++ (if ns = "" then "" else "\x7d\n")

/-- `processGroups` with the type-label-set enumeration order explicit. -/
def processGroups_ord (tOrd : List String → List String)
    (dtm : List (String × String))
    (enum : List (Option String) → List (Option String))
    (sheets : List (String × Dataset)) (ns : String) :
    List String → Except String (List (String × String))
  | [] => Except.ok []
  | group_name :: rest_groups =>
    let group_sheets := sheets.filter (fun p => strHasSub p.1 group_name)
    let dfs := (group_sheets.map Prod.snd).map preprocess
    match find_common_fields dfs with
    | none =>
      Except.error ("IndexError: list index out of range (group '"
        ++ group_name ++ "' matched no sheets)")
    | some common_fields =>
      let base_class_name := "Base" ++ group_name
      let base_class_str :=
        generate_class_ord tOrd dtm ns base_class_name (enum (common_fields.map some))
          [dfs.headD []] none
      let children := ((group_sheets.map Prod.fst).zip dfs).map (fun p =>
        (p.1 ++ ".cs",
          generate_class_ord tOrd dtm ns p.1 (enum (unique_fields p.2 common_fields))
            [p.2] (some base_class_name)))
      match processGroups_ord tOrd dtm enum sheets ns rest_groups with
      | Except.error e => Except.error e
      | Except.ok writes =>
        Except.ok ((base_class_name ++ ".cs", base_class_str) :: children ++ writes)

/-- `generate_csharp_classes_from_excel` with both per-run set enumeration
orders explicit: `tOrd` for each field's collected type-label set (the
`list(types)[0]` pick of line 62), `enum` for the field-name sets iterated
when rendering a class.  `generate_csharp_classes_from_excel` is the
identity-`tOrd` instance. -/
def generate_csharp_classes_from_excel_ord (tOrd : List String → List String)
    (dtm : List (String × String))
    (enum : List (Option String) → List (Option String))
    (sheets : List (String × Dataset)) (group_names : List String)
    (ns : String) : Except String (List (String × String)) :=
  processGroups_ord tOrd dtm enum sheets ns group_names

theorem uniqueFirstAux_mem {α : Type} [DecidableEq α] (seen l : List α) (x : α) :
    x ∈ uniqueFirstAux seen l ↔ x ∈ l ∧ x ∉ seen := by
  induction l generalizing seen with
  | nil => simp [uniqueFirstAux]
  | cons a as ih =>
    by_cases ha : a ∈ seen
    · rw [uniqueFirstAux, if_pos ha, ih, List.mem_cons]
      constructor
      · rintro ⟨h1, h2⟩
        exact ⟨Or.inr h1, h2⟩
      · rintro ⟨h1 | h1, h2⟩
        · exact absurd (h1 ▸ ha) h2
        · exact ⟨h1, h2⟩
    · rw [uniqueFirstAux, if_neg ha]
      simp only [List.mem_cons, ih]
      constructor
      · rintro (rfl | ⟨h1, h2⟩)
        · exact ⟨Or.inl rfl, ha⟩
        · exact ⟨Or.inr h1, fun hs => h2 (Or.inr hs)⟩
      · rintro ⟨rfl | h1, h2⟩
        · exact Or.inl rfl
        · by_cases hxa : x = a
          · exact Or.inl hxa
          · exact Or.inr ⟨h1, fun hs => hs.elim hxa h2⟩

theorem uniqueFirst_mem {α : Type} [DecidableEq α] (l : List α) (x : α) :
    x ∈ uniqueFirst l ↔ x ∈ l := by
  rw [uniqueFirst, uniqueFirstAux_mem]
  simp

theorem uniqueFirstAux_nodup {α : Type} [DecidableEq α] (seen l : List α) :
    (uniqueFirstAux seen l).Nodup := by
  induction l generalizing seen with
  | nil => simp [uniqueFirstAux]
  | cons a as ih =>
    by_cases ha : a ∈ seen
    · rw [uniqueFirstAux, if_pos ha]
      exact ih seen
    · rw [uniqueFirstAux, if_neg ha, List.nodup_cons]
      refine ⟨fun hmem => ?_, ih (a :: seen)⟩
      exact ((uniqueFirstAux_mem (a :: seen) as a).mp hmem).2 (List.mem_cons_self a seen)

theorem uniqueFirst_nodup {α : Type} [DecidableEq α] (l : List α) :
    (uniqueFirst l).Nodup :=
  uniqueFirstAux_nodup [] l

theorem setUpdate_mem {α : Type} [DecidableEq α] (s l : List α) (x : α) :
    x ∈ setUpdate s l ↔ x ∈ s ∨ x ∈ l := by
  induction l generalizing s with
  | nil => simp [setUpdate]
  | cons a as ih =>
    have step : setUpdate s (a :: as) = setUpdate (if a ∈ s then s else s ++ [a]) as := rfl
    rw [step, ih, List.mem_cons]
    by_cases ha : a ∈ s
    · rw [if_pos ha]
      constructor
      · rintro (h | h)
        · exact Or.inl h
        · exact Or.inr (Or.inr h)
      · rintro (h | rfl | h)
        · exact Or.inl h
        · exact Or.inl ha
        · exact Or.inr h
    · rw [if_neg ha]
      simp only [List.mem_append, List.mem_singleton]
      tauto

theorem foldlInter_mem (rest : List Dataset) (init : List String) (x : String) :
    x ∈ rest.foldl
        (fun common_fields df => common_fields.filter (fun s => decide (s ∈ sheetFields df)))
        init
      ↔ x ∈ init ∧ ∀ df ∈ rest, x ∈ sheetFields df := by
  induction rest generalizing init with
  | nil => simp
  | cons d ds ih =>
    simp only [List.foldl_cons, ih, List.mem_filter, decide_eq_true_eq,
      List.forall_mem_cons, and_assoc]

theorem foldlInter_nodup (rest : List Dataset) (init : List String) (h : init.Nodup) :
    (rest.foldl
      (fun common_fields df => common_fields.filter (fun s => decide (s ∈ sheetFields df)))
      init).Nodup := by
  induction rest generalizing init with
  | nil => exact h
  | cons d ds ih => exact ih _ (h.filter _)

theorem sheetFields_mem (df : Dataset) (s : String) :
    s ∈ sheetFields df ↔ some s ∈ df.map Row.name := by
  rw [sheetFields, uniqueFirst_mem, List.mem_filterMap, List.mem_map]

theorem commonFold_mem (df0 : Dataset) (rest : List Dataset) (s : String) :
    s ∈ commonFold df0 rest ↔ ∀ d ∈ df0 :: rest, some s ∈ d.map Row.name := by
  rw [commonFold, foldlInter_mem, List.forall_mem_cons, sheetFields_mem]
  constructor
  · rintro ⟨h0, h1⟩
    exact ⟨h0, fun d hd => (sheetFields_mem d s).mp (h1 d hd)⟩
  · rintro ⟨h0, h1⟩
    exact ⟨h0, fun d hd => (sheetFields_mem d s).mpr (h1 d hd)⟩

theorem commonFold_nodup (df0 : Dataset) (rest : List Dataset) :
    (commonFold df0 rest).Nodup :=
  foldlInter_nodup rest (sheetFields df0) (uniqueFirst_nodup _)

theorem sheetFieldsWithNa_mem (df : Dataset) (x : Option String) :
    x ∈ sheetFieldsWithNa df ↔ x ∈ df.map Row.name := by
  rw [sheetFieldsWithNa, uniqueFirst_mem]

theorem unique_fields_mem (df : Dataset) (cf : List String) (x : Option String) :
    x ∈ unique_fields df cf ↔ x ∈ df.map Row.name ∧ x ∉ cf.map some := by
  rw [unique_fields, List.mem_filter, sheetFieldsWithNa_mem, decide_eq_true_eq]

theorem strFoldl_eq (l : List String) (init : String) :
    l.foldl (fun r s => r ++ s) init = init ++ l.foldl (fun r s => r ++ s) "" := by
  induction l generalizing init with
  | nil => simp [String.append_empty]
  | cons a as ih =>
    simp only [List.foldl_cons]
    rw [ih (init ++ a), ih ("" ++ a), String.empty_append, String.append_assoc]

theorem strJoin_cons (a : String) (l : List String) :
    String.join (a :: l) = a ++ String.join l := by
  show (a :: l).foldl (fun r s => r ++ s) "" = a ++ l.foldl (fun r s => r ++ s) ""
  rw [List.foldl_cons, strFoldl_eq, String.empty_append]

theorem strJoin_append (l1 l2 : List String) :
    String.join (l1 ++ l2) = String.join l1 ++ String.join l2 := by
  induction l1 with
  | nil => simp [String.join, String.empty_append]
  | cons a as ih =>
    rw [List.cons_append, strJoin_cons, strJoin_cons, ih, String.append_assoc]

theorem foldl_append_string {α : Type} (f : α → String) (l : List α) (init : String) :
    l.foldl (fun acc x => acc ++ f x) init = init ++ String.join (l.map f) := by
  induction l generalizing init with
  | nil => simp [String.join, String.append_empty]
  | cons a as ih =>
    rw [List.foldl_cons, ih, List.map_cons, strJoin_cons, String.append_assoc]

theorem generate_class_decomp (dtm : List (String × String)) (ns cn : String)
    (fields : List (Option String)) (dfs : List Dataset) (b : Option String) :
    generate_class dtm ns cn fields dfs b =
      classHeader ns cn b
        ++ String.join (fields.map (propBlock dtm dfs (classIndent ns ++ "    ")))
        ++ classFooter ns := by
  simp only [generate_class, classHeader, classFooter]
  rw [foldl_append_string (propBlock dtm dfs (classIndent ns ++ "    "))]
  simp only [String.append_assoc]

theorem ffillAux_length (last : Option String) (l : List (Option String)) :
    (ffillAux last l).length = l.length := by
  induction l generalizing last with
  | nil => rfl
  | cons c cs ih => simp [ffillAux, ih]

theorem ffillAux_get (l : List (Option String)) (last : Option String) (i : Nat)
    (h : i < (ffillAux last l).length) :
    (ffillAux last l).get ⟨i, h⟩ = (l.take (i + 1)).foldl ffillStep last := by
  induction l generalizing last i with
  | nil => simp [ffillAux] at h
  | cons c cs ih =>
    cases i with
    | zero => simp [ffillAux, List.take_succ_cons]
    | succ n =>
      have h2 : n < (ffillAux (ffillStep last c) cs).length := by
        have := h
        simp only [ffillAux, List.length_cons] at this
        omega
      calc (ffillAux last (c :: cs)).get ⟨n + 1, h⟩
          = (ffillAux (ffillStep last c) cs).get ⟨n, h2⟩ := rfl
        _ = (cs.take (n + 1)).foldl ffillStep (ffillStep last c) := ih (ffillStep last c) n h2
        _ = ((c :: cs).take (n + 1 + 1)).foldl ffillStep last := by
            rw [List.take_succ_cons, List.foldl_cons]

theorem ffill_length (l : List (Option String)) : (ffill l).length = l.length :=
  ffillAux_length none l

theorem ffill_get (l : List (Option String)) (i : Nat) (h : i < (ffill l).length) :
    (ffill l).get ⟨i, h⟩ = lastSome (l.take (i + 1)) :=
  ffillAux_get l none i h

theorem withNames_names (df : Dataset) (names : List (Option String))
    (h : names.length = df.length) : (withNames df names).map Row.name = names := by
  rw [withNames]
  induction df generalizing names with
  | nil =>
    cases names with
    | nil => rfl
    | cons a as => simp at h
  | cons r rs ih =>
    cases names with
    | nil => simp at h
    | cons a as =>
      simp only [List.zipWith_cons_cons, List.map_cons]
      rw [ih as (by simpa using h)]

theorem preprocess_names (df : Dataset) :
    (preprocess df).map Row.name = ffill (df.map Row.name) := by
  rw [preprocess, withNames_names]
  rw [ffill_length, List.length_map]

theorem aggregateFold_expl (dfs : List Dataset) (fn : Option String)
    (acc : List String × List String × List String × List String) :
    (dfs.foldl (aggregateStep fn) acc).2.2.1 = acc.2.2.1 ++ dfs.flatMap (perDfExpl fn) := by
  induction dfs generalizing acc with
  | nil => simp
  | cons d ds ih =>
    rw [List.foldl_cons, ih, List.flatMap_cons]
    show acc.2.2.1 ++ perDfExpl fn d ++ ds.flatMap (perDfExpl fn) = _
    rw [List.append_assoc]

theorem aggregateFold_rem (dfs : List Dataset) (fn : Option String)
    (acc : List String × List String × List String × List String) :
    (dfs.foldl (aggregateStep fn) acc).2.2.2 = acc.2.2.2 ++ dfs.flatMap (perDfRem fn) := by
  induction dfs generalizing acc with
  | nil => simp
  | cons d ds ih =>
    rw [List.foldl_cons, ih, List.flatMap_cons]
    show acc.2.2.2 ++ perDfRem fn d ++ ds.flatMap (perDfRem fn) = _
    rw [List.append_assoc]

theorem aggregateFold_req_mem (dfs : List Dataset) (fn : Option String)
    (acc : List String × List String × List String × List String) (v : String) :
    v ∈ (dfs.foldl (aggregateStep fn) acc).2.1
      ↔ v ∈ acc.2.1 ∨ ∃ df ∈ dfs, v ∈ perDfReq fn df := by
  induction dfs generalizing acc with
  | nil => simp
  | cons d ds ih =>
    rw [List.foldl_cons, ih]
    show v ∈ setUpdate acc.2.1 (perDfReq fn d) ∨ _ ↔ _
    rw [setUpdate_mem]
    constructor
    · rintro ((h | h) | ⟨df, hdf, hv⟩)
      · exact Or.inl h
      · exact Or.inr ⟨d, List.mem_cons_self d ds, h⟩
      · exact Or.inr ⟨df, List.mem_cons_of_mem d hdf, hv⟩
    · rintro (h | ⟨df, hdf, hv⟩)
      · exact Or.inl (Or.inl h)
      · rcases List.mem_cons.mp hdf with rfl | hdf2
        · exact Or.inl (Or.inr hv)
        · exact Or.inr ⟨df, hdf2, hv⟩

theorem perDfReq_mem (fn : Option String) (df : Dataset) (v : String) :
    v ∈ perDfReq fn df ↔ ∃ r ∈ df, rowMatches fn r = true ∧ r.required = some v := by
  rw [perDfReq, uniqueFirst_mem, List.mem_filterMap]
  simp only [matchingRows, List.mem_filter]
  constructor
  · rintro ⟨r, ⟨hr, hm⟩, hv⟩
    exact ⟨r, hr, hm, hv⟩
  · rintro ⟨r, hr, hm, hv⟩
    exact ⟨r, ⟨hr, hm⟩, hv⟩

theorem perDfExpl_mem (fn : Option String) (df : Dataset) (v : String) :
    v ∈ perDfExpl fn df ↔ ∃ r ∈ df, rowMatches fn r = true ∧ r.description = some v := by
  rw [perDfExpl, uniqueFirst_mem, List.mem_filterMap]
  simp only [matchingRows, List.mem_filter]
  constructor
  · rintro ⟨r, ⟨hr, hm⟩, hv⟩
    exact ⟨r, hr, hm, hv⟩
  · rintro ⟨r, hr, hm, hv⟩
    exact ⟨r, ⟨hr, hm⟩, hv⟩

theorem perDfRem_mem (fn : Option String) (df : Dataset) (v : String) :
    v ∈ perDfRem fn df ↔ ∃ r ∈ df, rowMatches fn r = true ∧ r.remarks = some v := by
  rw [perDfRem, uniqueFirst_mem, List.mem_filterMap]
  simp only [matchingRows, List.mem_filter]
  constructor
  · rintro ⟨r, ⟨hr, hm⟩, hv⟩
    exact ⟨r, hr, hm, hv⟩
  · rintro ⟨r, hr, hm, hv⟩
    exact ⟨r, ⟨hr, hm⟩, hv⟩

theorem aggregate_req_iff (dfs : List Dataset) (fn : Option String) :
    "Y" ∈ (aggregateSets dfs fn).2.1
      ↔ ∃ df ∈ dfs, ∃ r ∈ df, rowMatches fn r = true ∧ r.required = some "Y" := by
  rw [aggregateSets, aggregateFold_req_mem]
  simp only [List.not_mem_nil, false_or]
  constructor
  · rintro ⟨df, hdf, hv⟩
    exact ⟨df, hdf, (perDfReq_mem fn df "Y").mp hv⟩
  · rintro ⟨df, hdf, hv⟩
    exact ⟨df, hdf, (perDfReq_mem fn df "Y").mpr hv⟩

theorem perDfTypes_mem (fn : Option String) (df : Dataset) (v : String) :
    v ∈ perDfTypes fn df ↔ ∃ r ∈ df, rowMatches fn r = true ∧ r.type = some v := by
  rw [perDfTypes, uniqueFirst_mem, List.mem_filterMap]
  simp only [matchingRows, List.mem_filter]
  constructor
  · rintro ⟨r, ⟨hr, hm⟩, hv⟩
    exact ⟨r, hr, hm, hv⟩
  · rintro ⟨r, hr, hm, hv⟩
    exact ⟨r, ⟨hr, hm⟩, hv⟩

theorem aggregateFold_types_mem (dfs : List Dataset) (fn : Option String)
    (acc : List String × List String × List String × List String) (v : String) :
    v ∈ (dfs.foldl (aggregateStep fn) acc).1
      ↔ v ∈ acc.1 ∨ ∃ df ∈ dfs, v ∈ perDfTypes fn df := by
  induction dfs generalizing acc with
  | nil => simp
  | cons d ds ih =>
    rw [List.foldl_cons, ih]
    show v ∈ setUpdate acc.1 (perDfTypes fn d) ∨ _ ↔ _
    rw [setUpdate_mem]
    constructor
    · rintro ((h | h) | ⟨df, hdf, hv⟩)
      · exact Or.inl h
      · exact Or.inr ⟨d, List.mem_cons_self d ds, h⟩
      · exact Or.inr ⟨df, List.mem_cons_of_mem d hdf, hv⟩
    · rintro (h | ⟨df, hdf, hv⟩)
      · exact Or.inl (Or.inl h)
      · rcases List.mem_cons.mp hdf with rfl | hdf2
        · exact Or.inl (Or.inr hv)
        · exact Or.inr ⟨df, hdf2, hv⟩

theorem aggregate_types_iff (dfs : List Dataset) (fn : Option String) (v : String) :
    v ∈ (aggregateSets dfs fn).1
      ↔ ∃ df ∈ dfs, ∃ r ∈ df, rowMatches fn r = true ∧ r.type = some v := by
  rw [aggregateSets, aggregateFold_types_mem]
  simp only [List.not_mem_nil, false_or]
  constructor
  · rintro ⟨df, hdf, hv⟩
    exact ⟨df, hdf, (perDfTypes_mem fn df v).mp hv⟩
  · rintro ⟨df, hdf, hv⟩
    exact ⟨df, hdf, (perDfTypes_mem fn df v).mpr hv⟩

theorem generate_class_ord_decomp (tOrd : List String → List String)
    (dtm : List (String × String)) (ns cn : String)
    (fields : List (Option String)) (dfs : List Dataset) (b : Option String) :
    generate_class_ord tOrd dtm ns cn fields dfs b =
      classHeader ns cn b
        ++ String.join (fields.map (propBlock_ord tOrd dtm dfs (classIndent ns ++ "    ")))
        ++ classFooter ns := by
  simp only [generate_class_ord, classHeader, classFooter]
  rw [foldl_append_string (propBlock_ord tOrd dtm dfs (classIndent ns ++ "    "))]
  simp only [String.append_assoc]

theorem aggregateStep_none
    (acc : List String × List String × List String × List String) (df : Dataset) :
    aggregateStep none acc df = acc := by
  obtain ⟨t, r, e, m⟩ := acc
  have hmatch : matchingRows none df = [] := by
    simp [matchingRows, rowMatches]
  simp [aggregateStep, perDfTypes, perDfReq, perDfExpl, perDfRem, hmatch,
    uniqueFirst, uniqueFirstAux, setUpdate]

theorem aggregateFold_none (dfs : List Dataset)
    (acc : List String × List String × List String × List String) :
    dfs.foldl (aggregateStep none) acc = acc := by
  induction dfs generalizing acc with
  | nil => rfl
  | cons d ds ih => rw [List.foldl_cons, aggregateStep_none, ih]

theorem aggregate_none (dfs : List Dataset) :
    aggregate_field_data dfs none = ("string", "N", [], []) := by
  rw [aggregate_field_data, aggregateSets, aggregateFold_none]
  rfl

theorem propBlock_none (dtm : List (String × String)) (dfs : List Dataset)
    (ind : String) :
    propBlock dtm dfs ind none
      = generate_csharp_property dtm "nan" "string" "N" [] [] ind := by
  rw [propBlock, aggregate_none]
  rfl

theorem count_flatMap_nodup (dfs : List Dataset) (f : Dataset → List String)
    (hnd : ∀ df, (f df).Nodup) (v : String) :
    (dfs.flatMap f).count v = dfs.countP (fun df => decide (v ∈ f df)) := by
  induction dfs with
  | nil => simp
  | cons d ds ih =>
    rw [List.flatMap_cons, List.count_append, List.countP_cons, ih]
    by_cases hv : v ∈ f d
    · have h1 : (f d).count v = 1 := by
        have hle := List.nodup_iff_count_le_one.mp (hnd d) v
        have hpos := List.count_pos_iff.mpr hv
        omega
      rw [h1, if_pos (by simpa using hv)]
      omega
    · rw [List.count_eq_zero.mpr hv, if_neg (by simpa using hv)]
      omega

theorem processGroups_error (dtm : List (String × String))
    (enum : List (Option String) → List (Option String))
    (sheets : List (String × Dataset)) (ns : String) (groups : List String)
    (g : String) (hg : g ∈ groups)
    (hnone : ∀ p ∈ sheets, strHasSub p.1 g = false) :
    ∃ e, processGroups dtm enum sheets ns groups = Except.error e := by
  induction groups with
  | nil => cases hg
  | cons g0 rest ih =>
    rcases List.mem_cons.mp hg with rfl | hgr
    · have hfil : sheets.filter (fun p => strHasSub p.1 g) = [] :=
        List.filter_eq_nil_iff.mpr (fun p hp => by simp [hnone p hp])
      refine ⟨"IndexError: list index out of range (group '" ++ g
        ++ "' matched no sheets)", ?_⟩
      simp only [processGroups, hfil]
      rfl
    · simp only [processGroups]
      split
      · exact ⟨_, rfl⟩
      · obtain ⟨e, he⟩ := ih hgr
        rw [he]
        exact ⟨e, rfl⟩

/-- Claim C2, counterexample: `find_common_fields` excludes only missing
(NaN) field names, not empty-string ones.  On a single dataset whose one
row has the empty string as its name, the code returns the set containing
the empty string, while the spec's description (empty strings excluded
before intersecting) yields the empty set. -/
theorem C2_counterexample :
    find_common_fields [[emptyNameRow]] = some [""]
    ∧ find_common_fields_spec [[emptyNameRow]] = some []
    ∧ (some [""] : Option (List String)) ≠ some [] := by
  decide

/-- Claim C2 (amended): for every non-empty list of datasets,
`find_common_fields` returns the intersection of the datasets' name-column
value sets with only missing (`none`) names excluded — an empty-string name
is retained; with exactly one dataset the result is that dataset's
missing-filtered field-name set, and with zero datasets the call fails
(`dfs[0]` raises). -/
theorem C2_common_fields (df0 : Dataset) (rest : List Dataset) (df : Dataset)
    (s : String) :
    find_common_fields (df0 :: rest) = some (commonFold df0 rest)
    ∧ (s ∈ commonFold df0 rest ↔ ∀ d ∈ df0 :: rest, some s ∈ d.map Row.name)
    ∧ find_common_fields [df] = some (sheetFields df)
    ∧ (s ∈ sheetFields df ↔ some s ∈ df.map Row.name)
    ∧ find_common_fields [] = none :=
  ⟨rfl, commonFold_mem df0 rest s, rfl, sheetFields_mem df s, rfl⟩

/-- Claim C3, counterexample: the aggregator deduplicates descriptions and
remarks only within each dataset (`pd.Series.unique` per dataset); a value
occurring in two datasets appears twice in the collected list, so it is not
true that each distinct value appears exactly once. -/
theorem C3_counterexample :
    (aggregate_field_data [[descRow], [descRow]] (some "f")).2.2.1 = ["d", "d"]
    ∧ List.count "d" (aggregate_field_data [[descRow], [descRow]] (some "f")).2.2.1 = 2
    ∧ (aggregate_field_data [[descRow], [descRow]] (some "f")).2.2.2 = ["r", "r"] := by
  decide

/-- Claim C3 (amended): the aggregator's explanation list is the
concatenation, over the datasets in order, of each dataset's first-seen-order
deduplicated non-missing description values of rows matching the field name;
deduplication happens within each dataset only, so a value appears once per
dataset containing it (its count equals the number of datasets with a
matching row carrying it).  The remarks list is built the same way from the
remarks column. -/
theorem C3_explanations (dfs : List Dataset) (fn : Option String) (v : String)
    (df : Dataset) :
    (aggregate_field_data dfs fn).2.2.1 = dfs.flatMap (perDfExpl fn)
    ∧ ((aggregate_field_data dfs fn).2.2.1).count v
        = dfs.countP (fun d => decide (v ∈ perDfExpl fn d))
    ∧ (v ∈ perDfExpl fn df ↔ ∃ r ∈ df, rowMatches fn r = true ∧ r.description = some v)
    ∧ (perDfExpl fn df).Nodup
    ∧ (aggregate_field_data dfs fn).2.2.2 = dfs.flatMap (perDfRem fn)
    ∧ ((aggregate_field_data dfs fn).2.2.2).count v
        = dfs.countP (fun d => decide (v ∈ perDfRem fn d))
    ∧ (v ∈ perDfRem fn df ↔ ∃ r ∈ df, rowMatches fn r = true ∧ r.remarks = some v) := by
  have he : (aggregate_field_data dfs fn).2.2.1 = dfs.flatMap (perDfExpl fn) := by
    show (aggregateSets dfs fn).2.2.1 = _
    rw [aggregateSets, aggregateFold_expl]
    rfl
  have hr : (aggregate_field_data dfs fn).2.2.2 = dfs.flatMap (perDfRem fn) := by
    show (aggregateSets dfs fn).2.2.2 = _
    rw [aggregateSets, aggregateFold_rem]
    rfl
  refine ⟨he, ?_, perDfExpl_mem fn df v, uniqueFirst_nodup _, hr, ?_, perDfRem_mem fn df v⟩
  · rw [he, count_flatMap_nodup dfs (perDfExpl fn) (fun d => uniqueFirst_nodup _) v]
  · rw [hr, count_flatMap_nodup dfs (perDfRem fn) (fun d => uniqueFirst_nodup _) v]

/-- Claim C4: the aggregator's resolved required flag is `"Y"` exactly when
some matching row in some dataset carries the required value `"Y"`, and
`"N"` otherwise (in particular when no matching row has a required value at
all, or when both `"Y"` and `"N"` occur the result is `"Y"`). -/
theorem C4_required_resolution (dfs : List Dataset) (fn : Option String) :
    ((aggregate_field_data dfs fn).2.1 = "Y"
      ↔ ∃ df ∈ dfs, ∃ r ∈ df, rowMatches fn r = true ∧ r.required = some "Y")
    ∧ ((aggregate_field_data dfs fn).2.1 = "N"
      ↔ ¬ ∃ df ∈ dfs, ∃ r ∈ df, rowMatches fn r = true ∧ r.required = some "Y") := by
  have hproj : (aggregate_field_data dfs fn).2.1
      = (if "Y" ∈ (aggregateSets dfs fn).2.1 then "Y" else "N") := rfl
  by_cases hy : "Y" ∈ (aggregateSets dfs fn).2.1
  · rw [hproj, if_pos hy]
    have hp := (aggregate_req_iff dfs fn).mp hy
    exact ⟨⟨fun _ => hp, fun _ => rfl⟩,
      ⟨fun h => absurd h (by decide), fun h => absurd hp h⟩⟩
  · rw [hproj, if_neg hy]
    exact ⟨⟨fun h => absurd h (by decide),
        fun h => absurd ((aggregate_req_iff dfs fn).mpr h) hy⟩,
      ⟨fun _ => fun h => hy ((aggregate_req_iff dfs fn).mpr h), fun _ => rfl⟩⟩

/-- Claim C5: the rendered property type is the configured target type for
the label suffixed with `?` when the label is a key of the configured
mapping, and the literal `string?` otherwise; the type mapper is total (no
label is an error). -/
theorem C5_type_mapping (dtm : List (String × String)) (label t name req ind : String)
    (es rs : List String) :
    (List.lookup label dtm = some t →
      generate_csharp_property dtm name label req es rs ind =
        summaryBlock es rs ind ++ ind ++ "public " ++ (t ++ "?") ++ " " ++ name
          ++ " \x7b get; set; \x7d\n\n")
    ∧ (List.lookup label dtm = none →
      generate_csharp_property dtm name label req es rs ind =
        summaryBlock es rs ind ++ ind ++ "public " ++ ("string" ++ "?") ++ " " ++ name
          ++ " \x7b get; set; \x7d\n\n") := by
  constructor
  · intro h
    rw [generate_csharp_property, h]
    rfl
  · intro h
    rw [generate_csharp_property, h]
    rfl

/-- Witness for C5 at the spec's own examples:
`map("int")` with mapping `{"int": "int"}` yields `int?`. -/
theorem C5_witness :
    generate_csharp_property [("int", "int")] "F" "int" "N" [] [] "" =
      summaryBlock [] [] "" ++ "" ++ "public " ++ ("int" ++ "?") ++ " " ++ "F"
        ++ " \x7b get; set; \x7d\n\n" :=
  (C5_type_mapping [("int", "int")] "int" "int" "F" "N" "" [] []).1 rfl

/-- Claim C6: the `required` argument of the property renderer never affects
the rendered text (the `[Required]` annotation hook is commented out), so two
renderings differing only in the required flag are identical. -/
theorem C6_required_not_rendered (dtm : List (String × String))
    (name label r1 r2 ind : String) (es rs : List String) :
    generate_csharp_property dtm name label r1 es rs ind =
      generate_csharp_property dtm name label r2 es rs ind := rfl

theorem mem_map_some_iff (cf : List String) (t : String) :
    some t ∈ cf.map some ↔ t ∈ cf := by
  rw [List.mem_map]
  constructor
  · rintro ⟨u, hu, huv⟩
    exact (Option.some_inj.mp huv) ▸ hu
  · intro h
    exact ⟨t, h, rfl⟩

theorem none_not_mem_map_some (cf : List String) :
    (none : Option String) ∉ cf.map some := by
  simp

/-- Claim C1, counterexample: on a group with a single sheet whose name
column is entirely missing (still missing after forward-fill), the common
fields are empty, yet the derived class's field set is `{NaN}` — not equal to
the sheet's field names minus the common fields (which is empty), so the
base/derived sets do not partition the field names. -/
theorem C1_counterexample :
    find_common_fields [preprocess [blankRow]] = some []
    ∧ unique_fields (preprocess [blankRow]) [] = [none]
    ∧ unique_fields (preprocess [blankRow]) []
        ≠ (sheetFields (preprocess [blankRow])).map some := by
  decide

/-- Claim C1 (amended): provided no dataset of the group still has a missing
name-column value after forward-fill, the base class holds exactly the field
names present in every dataset (each exactly once, since the common list has
no duplicates), no base field is in any derived set, each derived set is
exactly that sheet's field names minus the common fields, and base fields
plus derived unique fields cover exactly the union of the name columns. -/
theorem C1_partition (df0 : Dataset) (rest : List Dataset) (df : Dataset)
    (s : String) (x : Option String)
    (hmiss : ∀ d ∈ df0 :: rest, none ∉ d.map Row.name) (hdf : df ∈ df0 :: rest) :
    (s ∈ commonFold df0 rest ↔ ∀ d ∈ df0 :: rest, some s ∈ d.map Row.name)
    ∧ (commonFold df0 rest).Nodup
    ∧ (s ∈ commonFold df0 rest → some s ∉ unique_fields df (commonFold df0 rest))
    ∧ (x ∈ unique_fields df (commonFold df0 rest)
        ↔ ∃ t, x = some t ∧ some t ∈ df.map Row.name ∧ t ∉ commonFold df0 rest)
    ∧ ((x ∈ (commonFold df0 rest).map some
          ∨ ∃ d ∈ df0 :: rest, x ∈ unique_fields d (commonFold df0 rest))
        ↔ ∃ d ∈ df0 :: rest, x ∈ d.map Row.name) := by
  refine ⟨commonFold_mem df0 rest s, commonFold_nodup df0 rest, ?_, ?_, ?_⟩
  · intro hs hu
    exact ((unique_fields_mem df _ (some s)).mp hu).2 ((mem_map_some_iff _ s).mpr hs)
  · rw [unique_fields_mem]
    constructor
    · rintro ⟨h1, h2⟩
      have hx : x ≠ none := fun hxe => (hmiss df hdf) (hxe ▸ h1)
      obtain ⟨t, rfl⟩ := Option.ne_none_iff_exists'.mp hx
      exact ⟨t, rfl, h1, fun ht => h2 ((mem_map_some_iff _ t).mpr ht)⟩
    · rintro ⟨t, rfl, h1, h2⟩
      exact ⟨h1, fun hm => h2 ((mem_map_some_iff _ t).mp hm)⟩
  · constructor
    · rintro (hx | ⟨d, hd, hu⟩)
      · obtain ⟨t, ht, rfl⟩ := List.mem_map.mp hx
        exact ⟨df0, List.mem_cons_self df0 rest,
          ((commonFold_mem df0 rest t).mp ht) df0 (List.mem_cons_self df0 rest)⟩
      · exact ⟨d, hd, ((unique_fields_mem d _ x).mp hu).1⟩
    · rintro ⟨d, hd, hx⟩
      have hxn : x ≠ none := fun hxe => (hmiss d hd) (hxe ▸ hx)
      obtain ⟨t, rfl⟩ := Option.ne_none_iff_exists'.mp hxn
      by_cases ht : t ∈ commonFold df0 rest
      · exact Or.inl ((mem_map_some_iff _ t).mpr ht)
      · exact Or.inr ⟨d, hd, (unique_fields_mem d _ (some t)).mpr
          ⟨hx, fun hm => ht ((mem_map_some_iff _ t).mp hm)⟩⟩

/-- Witness for C1 at the spec's end-to-end scenario: sheets with fields
(Id, Name, Qty) and (Id, Name, Price). -/
theorem C1_witness :
    (("Id" ∈ commonFold dfItems1 [dfItems2])
        ↔ ∀ d ∈ [dfItems1, dfItems2], some "Id" ∈ d.map Row.name)
    ∧ (commonFold dfItems1 [dfItems2]).Nodup
    ∧ ("Id" ∈ commonFold dfItems1 [dfItems2]
        → some "Id" ∉ unique_fields dfItems1 (commonFold dfItems1 [dfItems2]))
    ∧ ((some "Qty" : Option String) ∈ unique_fields dfItems1 (commonFold dfItems1 [dfItems2])
        ↔ ∃ t, (some "Qty" : Option String) = some t ∧ some t ∈ dfItems1.map Row.name
            ∧ t ∉ commonFold dfItems1 [dfItems2])
    ∧ (((some "Qty" : Option String) ∈ (commonFold dfItems1 [dfItems2]).map some
          ∨ ∃ d ∈ [dfItems1, dfItems2],
              (some "Qty" : Option String) ∈ unique_fields d (commonFold dfItems1 [dfItems2]))
        ↔ ∃ d ∈ [dfItems1, dfItems2], (some "Qty" : Option String) ∈ d.map Row.name) :=
  C1_partition dfItems1 [dfItems2] dfItems1 "Id" (some "Qty") (by decide) (by decide)

/-- Claim C7: before any common-field or class computation the orchestrator
forward-fills the name column of each dataset (`preprocess`): every cell
becomes the last preceding non-missing value (a cell with no preceding
non-missing value stays missing), and the spec's example column fills as
required. -/
theorem C7_forward_fill (df : Dataset) (l : List (Option String)) (i : Nat)
    (h : i < (ffill l).length) :
    (preprocess df).map Row.name = ffill (df.map Row.name)
    ∧ (ffill l).length = l.length
    ∧ (ffill l).get ⟨i, h⟩ = lastSome (l.take (i + 1))
    ∧ ffill [some "A", none, none, some "B", none]
        = [some "A", some "A", some "A", some "B", some "B"] :=
  ⟨preprocess_names df, ffill_length l, ffill_get l i h, by decide⟩

theorem C7_witness :
    (preprocess [descRow]).map Row.name = ffill ([descRow].map Row.name)
    ∧ (ffill [some "A", none]).length = ([some "A", none] : List (Option String)).length
    ∧ (ffill [some "A", none]).get ⟨1, by decide⟩
        = lastSome (([some "A", none] : List (Option String)).take (1 + 1))
    ∧ ffill [some "A", none, none, some "B", none]
        = [some "A", some "A", some "A", some "B", some "B"] :=
  C7_forward_fill [descRow] [some "A", none] 1 (by decide)

/-- Claim C8, counterexample: generation is not a deterministic function of
its inputs alone, through two distinct hash-order dependences.  First, two
runs on identical inputs that differ only in the order Python happens to
iterate the field-name set (both orders enumerate the same set: they are
permutations of each other) produce different file contents.  Second, two
runs with identical field-name iteration order that differ only in the
enumeration order of a field's collected type-label set (`list(types)[0]`,
line 62) also produce different file contents, when the field's matching
rows carry conflicting type labels.  The identity-order instance of the
order-explicit orchestrator is the baseline orchestrator. -/
theorem C8_counterexample :
    (List.reverse [some "A", some "B"]).Perm ([some "A", some "B"] : List (Option String))
    ∧ generate_csharp_classes_from_excel_ord (fun l => l) [] (fun l => l)
          [("G1", dfAB)] ["G"] ""
        ≠ generate_csharp_classes_from_excel_ord (fun l => l) [] List.reverse
          [("G1", dfAB)] ["G"] ""
    ∧ (List.reverse ["int", "long"]).Perm ["int", "long"]
    ∧ generate_csharp_classes_from_excel_ord (fun l => l) dtmIL (fun l => l)
          [("G1", dfConflict)] ["G"] ""
        ≠ generate_csharp_classes_from_excel_ord List.reverse dtmIL (fun l => l)
          [("G1", dfConflict)] ["G"] ""
    ∧ generate_csharp_classes_from_excel_ord (fun l => l) [] (fun l => l)
          [("G1", dfAB)] ["G"] ""
        = generate_csharp_classes_from_excel [] (fun l => l) [("G1", dfAB)] ["G"] "" := by
  refine ⟨by decide, ?_, by decide, ?_, rfl⟩
  · intro h
    exact absurd (congrArg getWrites h) (by decide)
  · intro h
    exact absurd (congrArg getWrites h) (by decide)

/-- Claim C8 (amended): the output depends on the inputs together with the
iteration orders of the Python sets the run enumerates, in exactly two
places.  For a fixed enumeration `tOrd` of the type-label sets, enumerating
a class's field-name set in two orders (permutations of each other) leaves
the class header and footer unchanged and permutes the property blocks
accordingly (the rendered class is header ++ blocks ++ footer); and the type
label resolved for a field is the head of the run's enumeration of that
field's collected type-label set, whose elements are exactly the non-missing
type labels of rows matching the field across the datasets — so runs can
differ (only) through these two enumeration orders, and byte-identity across
runs is not guaranteed. -/
theorem C8_order_determinism (tOrd : List String → List String)
    (dtm : List (String × String)) (ns cn : String)
    (dfs : List Dataset) (b : Option String) (f1 f2 : List (Option String))
    (fn : Option String) (v : String) (h : f1.Perm f2) :
    (f1.map (propBlock_ord tOrd dtm dfs (classIndent ns ++ "    "))).Perm
        (f2.map (propBlock_ord tOrd dtm dfs (classIndent ns ++ "    ")))
    ∧ generate_class_ord tOrd dtm ns cn f1 dfs b =
        classHeader ns cn b
          ++ String.join (f1.map (propBlock_ord tOrd dtm dfs (classIndent ns ++ "    ")))
          ++ classFooter ns
    ∧ generate_class_ord tOrd dtm ns cn f2 dfs b =
        classHeader ns cn b
          ++ String.join (f2.map (propBlock_ord tOrd dtm dfs (classIndent ns ++ "    ")))
          ++ classFooter ns
    ∧ (aggregate_field_data_ord tOrd dfs fn).1
        = (tOrd (aggregateSets dfs fn).1).headD "string"
    ∧ (v ∈ (aggregateSets dfs fn).1
        ↔ ∃ df ∈ dfs, ∃ r ∈ df, rowMatches fn r = true ∧ r.type = some v) :=
  ⟨h.map _, generate_class_ord_decomp tOrd dtm ns cn f1 dfs b,
    generate_class_ord_decomp tOrd dtm ns cn f2 dfs b, rfl,
    aggregate_types_iff dfs fn v⟩

theorem C8_witness :
    (([some "A", some "B"] : List (Option String)).map
        (propBlock_ord List.reverse dtmIL [dfConflict] (classIndent "" ++ "    "))).Perm
      (([some "B", some "A"] : List (Option String)).map
        (propBlock_ord List.reverse dtmIL [dfConflict] (classIndent "" ++ "    ")))
    ∧ generate_class_ord List.reverse dtmIL "" "C" [some "A", some "B"] [dfConflict] none =
        classHeader "" "C" none
          ++ String.join (([some "A", some "B"] : List (Option String)).map
              (propBlock_ord List.reverse dtmIL [dfConflict] (classIndent "" ++ "    ")))
          ++ classFooter ""
    ∧ generate_class_ord List.reverse dtmIL "" "C" [some "B", some "A"] [dfConflict] none =
        classHeader "" "C" none
          ++ String.join (([some "B", some "A"] : List (Option String)).map
              (propBlock_ord List.reverse dtmIL [dfConflict] (classIndent "" ++ "    ")))
          ++ classFooter ""
    ∧ (aggregate_field_data_ord List.reverse [dfConflict] (some "A")).1
        = (List.reverse (aggregateSets [dfConflict] (some "A")).1).headD "string"
    ∧ ("long" ∈ (aggregateSets [dfConflict] (some "A")).1
        ↔ ∃ df ∈ [dfConflict], ∃ r ∈ df,
            rowMatches (some "A") r = true ∧ r.type = some "long") :=
  C8_order_determinism List.reverse dtmIL "" "C" [dfConflict] none
    [some "A", some "B"] [some "B", some "A"] (some "A") "long" (by decide)

/-- Claim C9: a group name matching no sheet name aborts the whole run with
an error (the common-field computation indexes the first of zero datasets);
the group is not skipped and no base class is emitted for it. -/
theorem C9_missing_group_aborts (dtm : List (String × String))
    (enum : List (Option String) → List (Option String))
    (sheets : List (String × Dataset)) (ns : String) (groups : List String)
    (g : String) (hg : g ∈ groups)
    (hnone : ∀ p ∈ sheets, strHasSub p.1 g = false) :
    ∃ e, generate_csharp_classes_from_excel dtm enum sheets groups ns
      = Except.error e :=
  processGroups_error dtm enum sheets ns groups g hg hnone

theorem C9_witness :
    ∃ e, generate_csharp_classes_from_excel [] (fun l => l) [("Alpha", [])]
      ["Zeta"] "Models" = Except.error e :=
  C9_missing_group_aborts [] (fun l => l) [("Alpha", [])] "Models" ["Zeta"] "Zeta"
    (by decide) (by decide)

/-- Claim C10: a name-column value still missing after forward-fill is kept
in the derived class's unique-field set (line 146 takes the name column
without `dropna()`), while missing names never enter the common fields; the
aggregator matches no rows for a missing field name (NaN compares unequal),
so a default property (`nan`, type `string?`, empty comment) is rendered for
it in the class text. -/
theorem C10_missing_name_rendered (df : Dataset) (cf : List String)
    (dtm : List (String × String)) (ns cn : String) (dfs : List Dataset)
    (b : Option String) (l1 l2 : List (Option String))
    (h : none ∈ (preprocess df).map Row.name) :
    none ∈ unique_fields (preprocess df) cf
    ∧ (none : Option String) ∉ cf.map some
    ∧ aggregate_field_data dfs none = ("string", "N", [], [])
    ∧ generate_class dtm ns cn (l1 ++ none :: l2) dfs b =
        classHeader ns cn b
          ++ (String.join (l1.map (propBlock dtm dfs (classIndent ns ++ "    ")))
            ++ (generate_csharp_property dtm "nan" "string" "N" [] []
                  (classIndent ns ++ "    ")
              ++ String.join (l2.map (propBlock dtm dfs (classIndent ns ++ "    ")))))
          ++ classFooter ns := by
  refine ⟨?_, none_not_mem_map_some cf, aggregate_none dfs, ?_⟩
  · rw [unique_fields_mem]
    exact ⟨h, none_not_mem_map_some cf⟩
  · rw [generate_class_decomp, List.map_append, List.map_cons, strJoin_append,
      strJoin_cons, propBlock_none]

theorem C10_witness :
    none ∈ unique_fields (preprocess [blankRow]) []
    ∧ (none : Option String) ∉ ([] : List String).map some
    ∧ aggregate_field_data [[blankRow]] none = ("string", "N", [], [])
    ∧ generate_class [] "" "C" ([] ++ none :: []) [[blankRow]] none =
        classHeader "" "C" none
          ++ (String.join (([] : List (Option String)).map
                (propBlock [] [[blankRow]] (classIndent "" ++ "    ")))
            ++ (generate_csharp_property [] "nan" "string" "N" [] []
                  (classIndent "" ++ "    ")
              ++ String.join (([] : List (Option String)).map
                (propBlock [] [[blankRow]] (classIndent "" ++ "    ")))))
          ++ classFooter "" :=
  C10_missing_name_rendered [blankRow] [] [] "" "C" [[blankRow]] none [] []
    (by decide)

end ModelGen
